import Mathlib

/-!
Shallow embedding of the streaming-ingestion-and-aggregation engine of
`src/Backend/services/WebSocket.py`.

Modelling conventions:
* Prices and volumes travel on the wire as JSON numbers; we embed them as
  rationals (`ℚ`).
* The module-level Python dict `ohlcv_buffer : Dict[str, list]` is embedded
  as an insertion-ordered association list `Buffer` (Python dicts preserve
  insertion order, and the code iterates over that order).
* A field read `trade.get(k)` on a decoded dict is an `Option`; the code's
  `trade.get("v", 0)` default becomes `Option.getD 0`.
* Store (Redis) writes are effects.  A write that the model performs is
  returned as a value (`SinkWrite`, `(symbol, OHLCV)` pairs); whether the
  external store accepts a write is an oracle argument (`sinkOk`,
  `writeOk`), since the code wraps each write in `try/except` and carries
  on either way.  Wall-clock fields (`updated_at` from
  `datetime.now(...)`) are not modelled.
-/

namespace Streamer

/-- One buffered sample, the dict `{"price": price, "volume": volume}`
appended at `WebSocket.py` line 71. -/
structure Sample where
  price : ℚ
  volume : ℚ
  deriving DecidableEq, Repr

/-- The module-level `ohlcv_buffer : Dict[str, list]`, as an
insertion-ordered association list. -/
abbrev Buffer : Type := List (String × List Sample)

/-- A decoded trade entry, restricted to the wire-conformant field types of
the upstream feed (`{"s": str, "p": num, "t": num, "v": num}`); `Option`
records which fields are present. -/
structure Trade where
  s : Option String
  p : Option ℚ
  t : Option Int
  v : Option ℚ
  deriving DecidableEq, Repr

/-- The pair of store writes `flush_trade` issues in one pipeline: the
live-price key `stock:price:<symbol>` and the trade-detail hash
`stock:trade:<symbol>` (the wall-clock `updated_at` field is not
modelled). -/
structure SinkWrite where
  symbol : String
  price : ℚ
  timestamp : Option Int
  volume : ℚ
  deriving DecidableEq, Repr

/-- The OHLCV hash written per symbol by `flush_ohlcv` (without the
wall-clock `updated_at` field). -/
structure OHLCV where
  open_ : ℚ
  high : ℚ
  low : ℚ
  close : ℚ
  volume : ℚ
  deriving DecidableEq, Repr

/-- `symbol in ohlcv_buffer` (line 69). -/
def hasKey (buf : Buffer) (sym : String) : Bool :=
  buf.any (fun e => e.1 = sym)

/-- `ohlcv_buffer[symbol].append(sample)` for a key already present:
append to that key's list, leave every other entry alone. -/
def addToKey (buf : Buffer) (sym : String) (smp : Sample) : Buffer :=
  buf.map (fun e => if e.1 = sym then (e.1, e.2 ++ [smp]) else e)

/-- Lines 69-71: create the key with an empty list when absent (a new dict
key goes to the end of the insertion order), then append the sample. -/
def appendSample (buf : Buffer) (sym : String) (smp : Sample) : Buffer :=
  if hasKey buf sym then addToKey buf sym smp
  else buf ++ [(sym, [smp])]

/-- `flush_trade` (lines 43-71).  `sinkOk` says whether the Redis pipeline
of line 64 succeeds; on failure the exception is caught at line 65 and the
function continues.  Returns the sink write actually stored (if any) and
the updated buffer.  The guard is line 50, `if not symbol or price is
None: return`: a missing or empty-string symbol is falsy, the price is
tested only against `None`. -/
def flush_trade (tr : Trade) (sinkOk : Bool) (buf : Buffer) :
    Option SinkWrite × Buffer :=
  match tr.s, tr.p with
  | some sym, some price =>
    if sym = "" then (none, buf)
    else
      ((if sinkOk then some ⟨sym, price, tr.t, tr.v.getD 0⟩ else none),
       appendSample buf sym ⟨price, tr.v.getD 0⟩)
  | _, _ => (none, buf)

/-- The OHLCV record computed at lines 78-94 from a non-empty window
`t :: ts`: `prices[0]`, `max(prices)`, `min(prices)`, `prices[-1]`,
`sum(volumes)`.  Python's `max`/`min` over a non-empty list fold the rest
of the list onto its first element; `sum` folds `+` from `0`. -/
def ohlcvOf (t : Sample) (ts : List Sample) : OHLCV :=
  { open_ := t.price
    high := (ts.map (fun s => s.price)).foldl max t.price
    low := (ts.map (fun s => s.price)).foldl min t.price
    close := (ts.map (fun s => s.price)).getLastD t.price
    volume := ((t :: ts).map (fun s => s.volume)).foldl (· + ·) 0 }

/-- `flush_ohlcv` (lines 73-101).  `writeOk sym` says whether the
`redis.hset` for that symbol succeeds; on failure the exception is caught
at line 98 and the loop continues with the next symbol.  Returns the list
of OHLCV records actually stored, in buffer order (empty windows are
skipped at line 76), and the buffer after the unconditional
`ohlcv_buffer.clear()` of line 101. -/
def flush_ohlcv (writeOk : String → Bool) (buf : Buffer) :
    List (String × OHLCV) × Buffer :=
  (buf.filterMap (fun e =>
    match e.2 with
    | [] => none
    | t :: ts => if writeOk e.1 then some (e.1, ohlcvOf t ts) else none),
   ([] : List (String × List Sample)))

/-!
## Connection lifecycle and reconnect backoff (`stream_trades`, lines 104-150)

One iteration of the outer `while True` loop is a cycle.  Its externally
visible behaviour is the sequence of sleeps and subscribe sends it
performs and the value of `reconnect_delay` it leaves behind.  Three
events can drive a cycle:

* `connectFail` — `websockets.connect` raises: the `except` arms run, the
  cycle sleeps the current delay (line 149) and doubles it capped at 60
  (line 150).
* `emptySymbols` — the handshake succeeds (so line 123 resets the delay to
  3), `get_symbols` returns the empty set: the loop warns, sleeps 30 and
  `continue`s, skipping lines 148-150 entirely.
* `sessionFail syms` — the handshake succeeds (delay reset to 3), the
  non-empty symbol set `syms` is subscribed one send per symbol
  (lines 131-132), and the inner receive loop eventually raises (timeout,
  closed connection, or any other exception — the inner `while True` has
  no other exit): the cycle ends by sleeping the current delay, which is
  the freshly reset 3, and doubling it.
-/

/-- Externally visible actions of one outer-loop cycle. -/
inductive Action where
  | sleep (seconds : ℕ)
  | subscribe (sym : String)
  deriving DecidableEq, Repr

/-- `reconnect_delay = 3` (line 108). -/
def initialDelay : ℕ := 3

/-- `max_delay = 60` (line 109). -/
def maxDelay : ℕ := 60

/-- The cooldown slept when the symbol set is empty (line 128). -/
def emptySymbolsSleep : ℕ := 30

/-- What can happen in one iteration of the outer loop. -/
inductive CycleEvent where
  | connectFail
  | emptySymbols
  | sessionFail (syms : List String)
  deriving DecidableEq, Repr

/-- Result of one outer-loop cycle: the actions performed, the
`reconnect_delay` left for the next cycle, and whether the cycle reached
the receive loop (subscribed and started receiving). -/
structure CycleResult where
  actions : List Action
  nextDelay : ℕ
  enteredReceiving : Bool
  deriving DecidableEq, Repr

/-- One iteration of the outer `while True` of `stream_trades`, starting
with `reconnect_delay = d`, driven by the given event. -/
def runCycle (d : ℕ) : CycleEvent → CycleResult
  | .connectFail => ⟨[.sleep d], min (d * 2) maxDelay, false⟩
  | .emptySymbols => ⟨[.sleep emptySymbolsSleep], initialDelay, false⟩
  | .sessionFail syms =>
      ⟨syms.map Action.subscribe ++ [.sleep initialDelay],
       min (initialDelay * 2) maxDelay, true⟩

/-- `reconnect_delay` after `n` consecutive `connectFail` cycles starting
from delay `d` (no intervening successful handshake). -/
def delayAfterFails (d : ℕ) : ℕ → ℕ
  | 0 => d
  | n + 1 => min (delayAfterFails d n * 2) maxDelay

/-!
## Inbound message handling (`stream_trades`, lines 134-146)

The receive loop does `data = json.loads(msg)`, then
`data.get("type") == "trade"`, then iterates `data.get("data", [])` and
calls `flush_trade` on each entry.  Any exception raised here propagates
to the `except` arms of the outer loop (lines 141-146) and tears the live
connection down.  We embed decoded JSON as `JVal`; an undecodable wire
message is `none`.
-/

/-- A decoded JSON value. -/
inductive JVal where
  | null
  | bool (b : Bool)
  | num (q : ℚ)
  | str (s : String)
  | arr (elems : List JVal)
  | obj (fields : List (String × JVal))

/-- Dict field lookup on a decoded JSON object.  `json.loads` keeps the
last occurrence of a duplicated key, so the lookup prefers later
fields. -/
def jLookup (fields : List (String × JVal)) (k : String) : Option JVal :=
  match fields with
  | [] => none
  | (k', v) :: rest =>
    match jLookup rest k with
    | some w => some w
    | none => if k' = k then some v else none

/-- `data.get("type") == "trade"`: a Python `==` against the string
literal, false for any non-string value. -/
def isTradeType (fields : List (String × JVal)) : Bool :=
  match jLookup fields "type" with
  | some (.str s) => s = "trade"
  | _ => false

/-- Outcome of handling one inbound wire message. -/
inductive RecvOutcome where
  | ignored
  | batch (entries : List JVal)
  | raised

/-- Lines 135-138 for one inbound message.  `none` (undecodable) makes
`json.loads` raise; a decoded non-object makes `data.get` raise
(`AttributeError`); an object whose `type` field is not the string
`"trade"` falls through the `if` with nothing else to do; a trade-typed
object yields the iteration of `data.get("data", [])` — a JSON string
iterates as its one-character substrings, an object iterates as its keys,
and a number/bool/null is not iterable and raises (`TypeError`). -/
def handleMessage : Option JVal → RecvOutcome
  | none => .raised
  | some (.obj fields) =>
    if isTradeType fields then
      match jLookup fields "data" with
      | none => .batch []
      | some (.arr es) => .batch es
      | some (.str s) => .batch (s.data.map (fun c => .str (String.mk [c])))
      | some (.obj fs) => .batch (fs.map (fun f => .str f.1))
      | some _ => .raised
    else .ignored
  | some _ => .raised

/-- Python truthiness of a decoded JSON value, as `not symbol` tests it
at line 50: `None`, `False`, `0`, `""`, `[]` and `{}` are falsy. -/
def jFalsy : JVal → Bool
  | .null => true
  | .bool b => !b
  | .num q => q = 0
  | .str s => s = ""
  | .arr es => es.isEmpty
  | .obj fs => fs.isEmpty

/-- `trade.get(k) is None`: the key is absent or its value decoded to
`None` (JSON null). -/
def getIsNone (fs : List (String × JVal)) (k : String) : Bool :=
  match jLookup fs k with
  | none => true
  | some .null => true
  | some _ => false

/-- `not trade.get(k)`: absent keys give `None`, which is falsy. -/
def getFalsy (fs : List (String × JVal)) (k : String) : Bool :=
  match jLookup fs k with
  | none => true
  | some v => jFalsy v

/-- Decoded JSON values Python cannot hash (use as a dict key): lists
and dicts. -/
def jUnhashable : JVal → Bool
  | .arr _ => true
  | .obj _ => true
  | _ => false

/-- The guard of line 50, `if not symbol or price is None: return`, for
a dict entry. -/
def guardDrops (fs : List (String × JVal)) : Bool :=
  getFalsy fs "s" || getIsNone fs "p"

/-- Whether `flush_trade(redis, trade)` returns rather than raises for
this entry.  A non-dict entry raises `AttributeError` at
`trade.get("s")` (line 44), which `flush_trade` does not catch.  A dict
entry runs the guarded part safely — every `.get` succeeds, truth
testing never raises, and the Redis pipeline is wrapped in `try/except`
(lines 60-66) — so it returns early when the line-50 guard fires, and
otherwise reaches line 69, `if symbol not in ohlcv_buffer:`, which
hashes the symbol: a truthy list or dict symbol raises `TypeError`
there, uncaught; any other (hashable) value completes the append. -/
def entryOk : JVal → Bool
  | .obj fs => guardDrops fs || !jUnhashable ((jLookup fs "s").getD .null)
  | _ => false

/-- The `for trade in data.get("data", []):` loop (lines 138-139).
Returns the entries on which `flush_trade` was invoked and ran to
completion, and whether the loop itself completed (`false` means an entry
raised, aborting the batch and the receive loop). -/
def processBatch : List JVal → List JVal × Bool
  | [] => ([], true)
  | e :: rest =>
    if entryOk e then
      ((processBatch rest).1.cons e, (processBatch rest).2)
    else ([], false)

/-!
## Interleaving of the receive path with a flush pass

`flush_ohlcv` runs on the same cooperatively scheduled thread as the
receive loop.  Its only suspension points inside the pass are the
`await redis.hset(...)` calls, one per non-empty window; the final
`ohlcv_buffer.clear()` runs synchronously after the loop.  During each
such suspension the receive loop may run and call
`ohlcv_buffer[symbol].append(...)` (after creating the key if absent).

`for symbol, trades in ohlcv_buffer.items():` iterates the live dict in
insertion order.  An append to an already present key mutates that key's
list in place and is legal; adding a *new* key while the iteration is in
flight makes the iterator's next step raise
`RuntimeError: dictionary changed size during iteration`, which escapes
`flush_ohlcv` (the `try` at line 96 only guards the `hset`), so the
clear at line 101 never runs.

We model the pass over the live buffer as `done` (entries the iterator
has passed) plus `todo` (entries still ahead), with `sched` giving the
appends performed by the receive loop during each successive suspension
point.  Store writes are taken as succeeding here; per-symbol write
failure is orthogonal and modelled in `flush_ohlcv`.
-/

/-- Apply the receive-loop appends of one suspension window to the live
buffer `done ++ rest`.  Returns the updated halves and whether some
append created a key absent from the dict (which will make the flush
iterator raise on its next step).  A fresh key goes to the end of the
insertion order, i.e. the end of `rest`. -/
def applyAppends (done rest : Buffer) :
    List (String × Sample) → Buffer × Buffer × Bool
  | [] => (done, rest, false)
  | (sym, smp) :: more =>
    if hasKey done sym then
      applyAppends (addToKey done sym smp) rest more
    else if hasKey rest sym then
      applyAppends done (addToKey rest sym smp) more
    else
      let r := applyAppends done (rest ++ [(sym, [smp])]) more
      (r.1, r.2.1, true)

/-- Observable outcome of one timer-driven flush pass. -/
structure FlushOutcome where
  writes : List (String × OHLCV)
  raised : Bool
  finalBuf : Buffer
  deriving Repr

/-- The `for symbol, trades in ohlcv_buffer.items():` loop of
`flush_ohlcv` running concurrently with receive-loop appends.  `done` is
the prefix of the live dict already passed by the iterator, `todo` the
suffix still ahead, and `sched` the appends arriving during successive
`await redis.hset` suspensions.  An empty window is skipped with no
suspension.  A non-empty window's record is computed from the samples
present when the window is read; the `hset` await then lets the scheduled
appends land, and if one of them created a new key the iterator's next
step raises, leaving the whole (mutated) dict in place; otherwise the
loop proceeds, and after the last entry `ohlcv_buffer.clear()` empties
the buffer. -/
def flushLoop (done todo : Buffer) (sched : List (List (String × Sample))) :
    FlushOutcome :=
  match todo with
  | [] => ⟨[], false, []⟩
  | (sym, trades) :: rest =>
    match trades with
    | [] => flushLoop (done ++ [(sym, [])]) rest sched
    | t :: ts =>
      let ad := applyAppends (done ++ [(sym, t :: ts)]) rest (sched.headD [])
      if _h3 : ad.2.2 = true then
        ⟨[(sym, ohlcvOf t ts)], true, ad.1 ++ ad.2.1⟩
      else
        let o := flushLoop ad.1 ad.2.1 sched.tail
        ⟨(sym, ohlcvOf t ts) :: o.writes, o.raised, o.finalBuf⟩
termination_by todo.length
decreasing_by
  · simp
  · have key : ∀ (apps : List (String × Sample)) (dn rs : Buffer),
        (applyAppends dn rs apps).2.2 = false →
        (applyAppends dn rs apps).2.1.length = rs.length := by
      intro apps
      induction apps with
      | nil => intro dn rs _; rfl
      | cons a more ih =>
        intro dn rs hf
        obtain ⟨sy, sp⟩ := a
        by_cases h1 : hasKey dn sy
        · simpa [applyAppends, h1] using
            ih _ _ (by simpa [applyAppends, h1] using hf)
        · by_cases h2 : hasKey rs sy
          · have hr := ih dn (addToKey rs sy sp)
              (by simpa [applyAppends, h1, h2] using hf)
            simpa [applyAppends, h1, h2, addToKey, List.length_map] using hr
          · simp [applyAppends, h1, h2] at hf
    have hlen := key (sched.headD [])
      (done ++ [(sym, t :: ts)]) rest (Bool.not_eq_true _ ▸ _h3)
    rw [List.headD_eq_head?] at hlen
    simp [hlen]

/-- One full flush pass over the buffer `buf` with the receive-loop
appends `sched` interleaved at its suspension points. -/
def runFlushCycle (buf : Buffer) (sched : List (List (String × Sample))) :
    FlushOutcome :=
  flushLoop [] buf sched

/-! ## Helper lemmas -/

theorem le_foldl_max (l : List ℚ) : ∀ a : ℚ, a ≤ l.foldl max a := by
  induction l with
  | nil => intro a; exact le_refl a
  | cons b l ih =>
    intro a
    exact le_trans (le_max_left a b) (ih (max a b))

theorem mem_le_foldl_max (l : List ℚ) :
    ∀ (a x : ℚ), x ∈ l → x ≤ l.foldl max a := by
  induction l with
  | nil => intro a x hx; exact absurd hx (List.not_mem_nil x)
  | cons b l ih =>
    intro a x hx
    rcases List.mem_cons.mp hx with h | h
    · subst h
      exact le_trans (le_max_right a x) (le_foldl_max l (max a x))
    · exact ih (max a b) x h

theorem foldl_max_mem (l : List ℚ) :
    ∀ a : ℚ, l.foldl max a = a ∨ l.foldl max a ∈ l := by
  induction l with
  | nil => intro a; exact Or.inl rfl
  | cons b l ih =>
    intro a
    rcases ih (max a b) with h | h
    · rcases max_choice a b with h2 | h2
      · exact Or.inl (by rw [List.foldl_cons, h, h2])
      · exact Or.inr (by rw [List.foldl_cons, h, h2]; exact List.mem_cons_self b l)
    · exact Or.inr (List.mem_cons_of_mem b h)

theorem foldl_min_le (l : List ℚ) : ∀ a : ℚ, l.foldl min a ≤ a := by
  induction l with
  | nil => intro a; exact le_refl a
  | cons b l ih =>
    intro a
    exact le_trans (ih (min a b)) (min_le_left a b)

theorem foldl_min_le_mem (l : List ℚ) :
    ∀ (a x : ℚ), x ∈ l → l.foldl min a ≤ x := by
  induction l with
  | nil => intro a x hx; exact absurd hx (List.not_mem_nil x)
  | cons b l ih =>
    intro a x hx
    rcases List.mem_cons.mp hx with h | h
    · subst h
      exact le_trans (foldl_min_le l (min a x)) (min_le_right a x)
    · exact ih (min a b) x h

theorem foldl_min_mem (l : List ℚ) :
    ∀ a : ℚ, l.foldl min a = a ∨ l.foldl min a ∈ l := by
  induction l with
  | nil => intro a; exact Or.inl rfl
  | cons b l ih =>
    intro a
    rcases ih (min a b) with h | h
    · rcases min_choice a b with h2 | h2
      · exact Or.inl (by rw [List.foldl_cons, h, h2])
      · exact Or.inr (by rw [List.foldl_cons, h, h2]; exact List.mem_cons_self b l)
    · exact Or.inr (List.mem_cons_of_mem b h)

theorem getLastD_map {α β : Type} (f : α → β) (l : List α) :
    ∀ a : α, (l.map f).getLastD (f a) = f (l.getLastD a) := by
  induction l with
  | nil => intro a; rfl
  | cons b l ih =>
    intro a
    rw [List.map_cons, List.getLastD_cons, List.getLastD_cons]
    exact ih b

/-- The guard of line 50 fires: a trade with a missing or empty-string
symbol, or a missing price, is returned early, with no sink write and the
buffer untouched. -/
theorem flush_trade_dropped (tr : Trade) (sinkOk : Bool) (buf : Buffer)
    (h : tr.s = none ∨ tr.s = some "" ∨ tr.p = none) :
    flush_trade tr sinkOk buf = (none, buf) := by
  rcases h with h | h | h
  · cases hp : tr.p <;> simp [flush_trade, h, hp]
  · cases hp : tr.p <;> simp [flush_trade, h, hp]
  · cases hs : tr.s <;> simp [flush_trade, h, hs]

/-- The guard of line 50 passes: a trade with a present non-empty symbol
and a present price issues the pipeline write (kept iff the store accepts
it) and appends its sample to the buffer. -/
theorem flush_trade_processed (tr : Trade) (sinkOk : Bool) (buf : Buffer)
    (sym : String) (p : ℚ) (hs : tr.s = some sym) (hne : sym ≠ "")
    (hp : tr.p = some p) :
    flush_trade tr sinkOk buf =
      ((if sinkOk then some ⟨sym, p, tr.t, tr.v.getD 0⟩ else none),
       appendSample buf sym ⟨p, tr.v.getD 0⟩) := by
  simp [flush_trade, hs, hp, hne]

/-- A non-empty window whose store write succeeds contributes its OHLCV
record to the writes of `flush_ohlcv`. -/
theorem mem_flush_ohlcv_writes (writeOk : String → Bool) (buf : Buffer)
    (sym : String) (t : Sample) (ts : List Sample)
    (hmem : (sym, t :: ts) ∈ buf) (hok : writeOk sym = true) :
    (sym, ohlcvOf t ts) ∈ (flush_ohlcv writeOk buf).1 := by
  apply List.mem_filterMap.mpr
  exact ⟨(sym, t :: ts), hmem, by simp [hok]⟩

/-- Sanity check mirroring the end-to-end scenario: two trades for one
symbol within one window flush to
`{open: first, high: max, low: min, close: last, volume: sum}`. -/
theorem flush_ohlcv_scenario :
    flush_ohlcv (fun _ => true)
      [("AAPL", [⟨190, 10⟩, ⟨191, 5⟩])] =
      ([("AAPL", ⟨190, 191, 190, 191, 15⟩)], []) := by
  simp [flush_ohlcv, ohlcvOf]
  norm_num

/-- Sanity check: a volume-less trade stores and buffers volume 0. -/
theorem flush_trade_scenario :
    flush_trade ⟨some "AAPL", some 190, some 1000, none⟩ true [] =
      (some ⟨"AAPL", 190, some 1000, 0⟩, [("AAPL", [⟨190, 0⟩])]) := by
  simp [flush_trade, appendSample, hasKey, addToKey]

/-! ## Claims -/

/-- C1: for every instrument whose window is non-empty at flush time, the
flushed record has `open` = first sample's price, `close` = last sample's
price, `high` = the maximum price (so `high` ≥ every price and is one of
the prices), `low` = the minimum price (dually), and `volume` = the sum
of the sample volumes; and a trade whose volume field was absent on the
wire contributes a sample of volume 0. -/
theorem c1_flush_ohlcv_record (writeOk : String → Bool) (buf : Buffer)
    (sym : String) (t : Sample) (ts : List Sample)
    (hmem : (sym, t :: ts) ∈ buf) (hok : writeOk sym = true)
    (s : Sample) (hsmem : s ∈ t :: ts)
    (tr : Trade) (sinkOk : Bool) (b : Buffer) (sy : String) (p : ℚ)
    (hs : tr.s = some sy) (hne : sy ≠ "") (hp : tr.p = some p)
    (hv : tr.v = none) :
    (sym, ohlcvOf t ts) ∈ (flush_ohlcv writeOk buf).1 ∧
    (ohlcvOf t ts).open_ = t.price ∧
    (ohlcvOf t ts).close = (ts.getLastD t).price ∧
    s.price ≤ (ohlcvOf t ts).high ∧
    (ohlcvOf t ts).high ∈ (t :: ts).map (fun x => x.price) ∧
    (ohlcvOf t ts).low ≤ s.price ∧
    (ohlcvOf t ts).low ∈ (t :: ts).map (fun x => x.price) ∧
    (ohlcvOf t ts).volume = ((t :: ts).map (fun x => x.volume)).sum ∧
    (flush_trade tr sinkOk b).2 = appendSample b sy ⟨p, 0⟩ := by
  refine ⟨mem_flush_ohlcv_writes writeOk buf sym t ts hmem hok, rfl, ?_, ?_, ?_, ?_, ?_, ?_, ?_⟩
  · exact getLastD_map (fun x => x.price) ts t
  · rcases List.mem_cons.mp hsmem with h | h
    · subst h; exact le_foldl_max _ _
    · exact mem_le_foldl_max _ _ _ (List.mem_map_of_mem _ h)
  · rcases foldl_max_mem (ts.map (fun x => x.price)) t.price with h | h
    · rw [List.map_cons]; rw [ohlcvOf] at *; rw [h]; exact List.mem_cons_self _ _
    · rw [List.map_cons]; exact List.mem_cons_of_mem _ h
  · rcases List.mem_cons.mp hsmem with h | h
    · subst h; exact foldl_min_le _ _
    · exact foldl_min_le_mem _ _ _ (List.mem_map_of_mem _ h)
  · rcases foldl_min_mem (ts.map (fun x => x.price)) t.price with h | h
    · rw [List.map_cons]; rw [ohlcvOf] at *; rw [h]; exact List.mem_cons_self _ _
    · rw [List.map_cons]; exact List.mem_cons_of_mem _ h
  · rw [ohlcvOf, List.sum_eq_foldl]
  · rw [flush_trade_processed tr sinkOk b sy p hs hne hp, hv]
    rfl

/-- Witness for C1 at a concrete window and trade. -/
theorem c1_witness :
    ("A", ohlcvOf ⟨1, 2⟩ [⟨3, 4⟩]) ∈
      (flush_ohlcv (fun _ => true) [("A", [⟨1, 2⟩, ⟨3, 4⟩])]).1 ∧
    (ohlcvOf ⟨1, 2⟩ [⟨3, 4⟩]).open_ = (Sample.mk 1 2).price ∧
    (ohlcvOf ⟨1, 2⟩ [⟨3, 4⟩]).close =
      (([⟨3, 4⟩] : List Sample).getLastD ⟨1, 2⟩).price ∧
    (Sample.mk 3 4).price ≤ (ohlcvOf ⟨1, 2⟩ [⟨3, 4⟩]).high ∧
    (ohlcvOf ⟨1, 2⟩ [⟨3, 4⟩]).high ∈
      ([⟨1, 2⟩, ⟨3, 4⟩] : List Sample).map (fun x => x.price) ∧
    (ohlcvOf ⟨1, 2⟩ [⟨3, 4⟩]).low ≤ (Sample.mk 3 4).price ∧
    (ohlcvOf ⟨1, 2⟩ [⟨3, 4⟩]).low ∈
      ([⟨1, 2⟩, ⟨3, 4⟩] : List Sample).map (fun x => x.price) ∧
    (ohlcvOf ⟨1, 2⟩ [⟨3, 4⟩]).volume =
      (([⟨1, 2⟩, ⟨3, 4⟩] : List Sample).map (fun x => x.volume)).sum ∧
    (flush_trade ⟨some "B", some 7, none, none⟩ true []).2 =
      appendSample [] "B" ⟨7, 0⟩ :=
  c1_flush_ohlcv_record (fun _ => true) [("A", [⟨1, 2⟩, ⟨3, 4⟩])] "A"
    ⟨1, 2⟩ [⟨3, 4⟩] (by simp) rfl ⟨3, 4⟩ (by simp)
    ⟨some "B", some 7, none, none⟩ true [] "B" 7 rfl (by decide) rfl rfl

/-- C2: after a flush cycle the buffer is cleared unconditionally,
whatever the per-symbol write outcomes were, and a symbol whose own write
succeeds gets its record stored no matter which other symbols' writes
failed. -/
theorem c2_flush_clears_and_isolates (writeOk : String → Bool)
    (buf : Buffer) (sym : String) (t : Sample) (ts : List Sample)
    (hmem : (sym, t :: ts) ∈ buf) (hok : writeOk sym = true) :
    (flush_ohlcv writeOk buf).2 = [] ∧
    (sym, ohlcvOf t ts) ∈ (flush_ohlcv writeOk buf).1 :=
  ⟨rfl, mem_flush_ohlcv_writes writeOk buf sym t ts hmem hok⟩

/-- Witness for C2: the write for "A" fails, the buffer is still cleared
and "B" is still flushed. -/
theorem c2_witness :
    (flush_ohlcv (fun s => s = "B")
      [("A", [⟨1, 1⟩]), ("B", [⟨2, 2⟩])]).2 = [] ∧
    ("B", ohlcvOf ⟨2, 2⟩ []) ∈
      (flush_ohlcv (fun s => s = "B")
        [("A", [⟨1, 1⟩]), ("B", [⟨2, 2⟩])]).1 :=
  c2_flush_clears_and_isolates (fun s => s = "B")
    [("A", [⟨1, 1⟩]), ("B", [⟨2, 2⟩])] "B" ⟨2, 2⟩ [] (by simp)
    (by simp)

/-- C3: a trade event with a missing instrument identifier or a missing
price reaches neither the trade sink nor the aggregation buffer: the
function returns early with no write and the buffer unchanged (and no
error is raised — the model's return value is total). -/
theorem c3_missing_fields_dropped (tr : Trade) (sinkOk : Bool)
    (buf : Buffer) (h : tr.s = none ∨ tr.p = none) :
    flush_trade tr sinkOk buf = (none, buf) :=
  flush_trade_dropped tr sinkOk buf (by tauto)

/-- Witness for C3 at a concrete priceless trade. -/
theorem c3_witness :
    flush_trade ⟨some "A", none, some 5, some 1⟩ true [("A", [⟨1, 1⟩])] =
      (none, [("A", [⟨1, 1⟩])]) :=
  c3_missing_fields_dropped ⟨some "A", none, some 5, some 1⟩ true
    [("A", [⟨1, 1⟩])] (Or.inr rfl)

/-- C9: for a well-formed trade event the buffer append happens even when
the trade-sink pipeline write fails: the failed cycle stores nothing in
the sink, yet leaves the buffer exactly as a successful cycle would. -/
theorem c9_append_despite_sink_failure (tr : Trade) (buf : Buffer)
    (sym : String) (p : ℚ) (hs : tr.s = some sym) (hne : sym ≠ "")
    (hp : tr.p = some p) :
    (flush_trade tr false buf).1 = none ∧
    (flush_trade tr false buf).2 = appendSample buf sym ⟨p, tr.v.getD 0⟩ ∧
    (flush_trade tr false buf).2 = (flush_trade tr true buf).2 := by
  rw [flush_trade_processed tr false buf sym p hs hne hp,
    flush_trade_processed tr true buf sym p hs hne hp]
  exact ⟨rfl, rfl, rfl⟩

/-- Witness for C9 at a concrete trade whose pipeline write fails. -/
theorem c9_witness :
    (flush_trade ⟨some "A", some 5, some 9, some 2⟩ false []).1 = none ∧
    (flush_trade ⟨some "A", some 5, some 9, some 2⟩ false []).2 =
      appendSample [] "A" ⟨5, (some (2 : ℚ)).getD 0⟩ ∧
    (flush_trade ⟨some "A", some 5, some 9, some 2⟩ false []).2 =
      (flush_trade ⟨some "A", some 5, some 9, some 2⟩ true []).2 :=
  c9_append_despite_sink_failure ⟨some "A", some 5, some 9, some 2⟩ []
    "A" 5 rfl (by decide) rfl

/-- C10: the guard is asymmetric.  A trade whose price is exactly 0 is
processed normally (sink write attempted and sample appended), because
the price is tested only with `is None`; a trade whose identifier is the
empty string is dropped, because the identifier is tested for
falsiness. -/
theorem c10_guard_asymmetry (tr tr' : Trade) (sinkOk : Bool)
    (buf : Buffer) (sym : String) (hs : tr.s = some sym) (hne : sym ≠ "")
    (hp : tr.p = some 0) (hs' : tr'.s = some "") :
    flush_trade tr sinkOk buf =
      ((if sinkOk then some ⟨sym, 0, tr.t, tr.v.getD 0⟩ else none),
       appendSample buf sym ⟨0, tr.v.getD 0⟩) ∧
    flush_trade tr' sinkOk buf = (none, buf) :=
  ⟨flush_trade_processed tr sinkOk buf sym 0 hs hne hp,
   flush_trade_dropped tr' sinkOk buf (Or.inr (Or.inl hs'))⟩

/-- Witness for C10: a zero-price trade is appended, an empty-symbol
trade is dropped. -/
theorem c10_witness :
    flush_trade ⟨some "A", some 0, none, some 3⟩ true [] =
      ((if true then some ⟨"A", 0, none, (some (3 : ℚ)).getD 0⟩ else none),
       appendSample [] "A" ⟨0, (some (3 : ℚ)).getD 0⟩) ∧
    flush_trade ⟨some "", some 4, none, none⟩ true [] = (none, []) :=
  c10_guard_asymmetry ⟨some "A", some 0, none, some 3⟩
    ⟨some "", some 4, none, none⟩ true [] "A" rfl (by decide) rfl rfl

/-- Closed form for the backoff delay after `n` consecutive connect
failures starting from the floor. -/
theorem delayAfterFails_closed (n : ℕ) :
    delayAfterFails initialDelay n = min (3 * 2 ^ n) 60 := by
  induction n with
  | zero => simp [delayAfterFails, initialDelay]
  | succ n ih =>
    rw [delayAfterFails, ih, maxDelay]
    have h2 : 3 * 2 ^ (n + 1) = 3 * 2 ^ n * 2 := by ring
    rw [h2]
    omega

/-- C4: the backoff delay starts at the 3-unit floor; a failed connect
attempt sleeps the current delay and then doubles it capped at 60, so
consecutive failures without an intervening success strictly double the
wait while below the cap and never exceed the cap; and the delay is reset
to the floor exactly by a successful handshake — a session that dies
after the handshake sleeps the freshly reset 3 (not the old delay), and
even the empty-symbol path, which never reaches the receive loop, leaves
the delay at the floor. -/
theorem c4_backoff_doubling_and_reset (d n m : ℕ) (syms : List String)
    (hcap : 3 * 2 ^ (n + 1) ≤ 60) :
    initialDelay = 3 ∧ maxDelay = 60 ∧
    (runCycle d CycleEvent.connectFail).actions = [Action.sleep d] ∧
    (runCycle d CycleEvent.connectFail).nextDelay = min (d * 2) maxDelay ∧
    delayAfterFails initialDelay (n + 1) =
      2 * delayAfterFails initialDelay n ∧
    delayAfterFails initialDelay m ≤ maxDelay ∧
    (runCycle d (CycleEvent.sessionFail syms)).actions =
      syms.map Action.subscribe ++ [Action.sleep initialDelay] ∧
    (runCycle d (CycleEvent.sessionFail syms)).nextDelay =
      min (initialDelay * 2) maxDelay ∧
    (runCycle d CycleEvent.emptySymbols).nextDelay = initialDelay ∧
    (runCycle d CycleEvent.emptySymbols).enteredReceiving = false := by
  refine ⟨rfl, rfl, rfl, rfl, ?_, ?_, rfl, rfl, rfl, rfl⟩
  · rw [delayAfterFails_closed, delayAfterFails_closed]
    have h2 : 3 * 2 ^ (n + 1) = 3 * 2 ^ n * 2 := by ring
    omega
  · rw [delayAfterFails_closed, maxDelay]
    exact min_le_right _ _

/-- Witness for C4 at delay 7 after two prior failures. -/
theorem c4_witness :
    initialDelay = 3 ∧ maxDelay = 60 ∧
    (runCycle 7 CycleEvent.connectFail).actions = [Action.sleep 7] ∧
    (runCycle 7 CycleEvent.connectFail).nextDelay = min (7 * 2) maxDelay ∧
    delayAfterFails initialDelay 3 = 2 * delayAfterFails initialDelay 2 ∧
    delayAfterFails initialDelay 9 ≤ maxDelay ∧
    (runCycle 7 (CycleEvent.sessionFail ["A"])).actions =
      ["A"].map Action.subscribe ++ [Action.sleep initialDelay] ∧
    (runCycle 7 (CycleEvent.sessionFail ["A"])).nextDelay =
      min (initialDelay * 2) maxDelay ∧
    (runCycle 7 CycleEvent.emptySymbols).nextDelay = initialDelay ∧
    (runCycle 7 CycleEvent.emptySymbols).enteredReceiving = false :=
  c4_backoff_doubling_and_reset 7 2 9 ["A"] (by norm_num)

/-- C7: with a successfully connected upstream but an empty symbol set,
the cycle performs exactly one 30-unit sleep — no subscribe sends — does
not enter the receive state, and leaves the reconnect delay at the
3-unit floor (the handshake reset it and the `continue` skips the
backoff sleep-and-double of lines 148-150); the outer loop then retries
from the top. -/
theorem c7_empty_symbols_idle (d : ℕ) :
    runCycle d CycleEvent.emptySymbols =
      ⟨[Action.sleep emptySymbolsSleep], initialDelay, false⟩ ∧
    emptySymbolsSleep = 30 ∧ initialDelay = 3 :=
  ⟨rfl, rfl, rfl⟩

/-- A batch all of whose entries `flush_trade` completes on is processed
to the end, every entry reaching `flush_trade`. -/
theorem processBatch_all_ok (entries : List JVal)
    (h : ∀ e ∈ entries, entryOk e = true) :
    processBatch entries = (entries, true) := by
  induction entries with
  | nil => rfl
  | cons e rest ih =>
    have he := h e (List.mem_cons_self e rest)
    have hr := ih (fun x hx => h x (List.mem_cons_of_mem _ hx))
    simp [processBatch, he, hr]

/-- C5 counterexample: a batch whose first entry is the JSON number `1`
(not a dict) aborts at that entry — `trade.get("s")` raises
`AttributeError`, which `flush_trade` does not catch — and so does a
batch whose first entry is the dict `{"s": [1], "p": 2}`: the array
identifier is truthy and the price present, so the line-50 guard passes,
and line 69 `if symbol not in ohlcv_buffer:` raises
`TypeError: unhashable type` hashing it.  Either way the well-formed
trade entry that follows is never processed and the receive loop is torn
down, refuting "one bad entry (of any shape) never aborts the batch". -/
theorem c5_counterexample :
    processBatch
      [JVal.num 1, JVal.obj [("s", JVal.str "A"), ("p", JVal.num 5)]] =
      ([], false) ∧
    processBatch
      [JVal.obj [("s", JVal.arr [JVal.num 1]), ("p", JVal.num 2)],
       JVal.obj [("s", JVal.str "A"), ("p", JVal.num 5)]] =
      ([], false) :=
  ⟨rfl, rfl⟩

/-- C5 as amended: the batch continues past an entry exactly when
`flush_trade` completes on it — an object entry with an absent or falsy
identifier or an absent/null price is skipped alone by the line-50 guard
(no write, no append), and objects with hashable truthy identifiers
complete, so a batch of such entries is processed in full; but an entry
that is not an object (`AttributeError` at `trade.get("s")`), or an
object that passes the guard with an array/object identifier
(`TypeError` when line 69 hashes it), raises an exception `flush_trade`
does not catch, aborting the rest of the batch and the receive loop. -/
theorem c5_amended_guard_skip_vs_abort (entries : List JVal)
    (h : ∀ e ∈ entries, entryOk e = true)
    (tr : Trade) (sinkOk : Bool) (b : Buffer) (bad : JVal)
    (hbad : entryOk bad = false)
    (hdrop : tr.s = none ∨ tr.s = some "" ∨ tr.p = none) :
    processBatch entries = (entries, true) ∧
    flush_trade tr sinkOk b = (none, b) ∧
    processBatch (bad :: entries) = ([], false) := by
  refine ⟨processBatch_all_ok entries h,
    flush_trade_dropped tr sinkOk b hdrop, ?_⟩
  simp [processBatch, hbad]

/-- Witness for C5 (amended): a batch of a complete entry and a
guard-dropped one runs in full; a partial typed trade is skipped with
nothing written; an object entry whose identifier is the array `[1]`
(truthy but unhashable) aborts the batch. -/
theorem c5_witness :
    processBatch
      [JVal.obj [("s", JVal.str "A"), ("p", JVal.num 5)], JVal.obj []] =
      ([JVal.obj [("s", JVal.str "A"), ("p", JVal.num 5)], JVal.obj []],
       true) ∧
    flush_trade ⟨none, some 1, none, none⟩ true [] = (none, []) ∧
    processBatch
      (JVal.obj [("s", JVal.arr [JVal.num 1]), ("p", JVal.num 2)] ::
        [JVal.obj [("s", JVal.str "A"), ("p", JVal.num 5)],
         JVal.obj []]) =
      ([], false) :=
  c5_amended_guard_skip_vs_abort
    [JVal.obj [("s", JVal.str "A"), ("p", JVal.num 5)], JVal.obj []]
    (by
      intro e he
      simp only [List.mem_cons, List.not_mem_nil, or_false] at he
      rcases he with rfl | rfl
      · rfl
      · rfl)
    ⟨none, some 1, none, none⟩ true []
    (JVal.obj [("s", JVal.arr [JVal.num 1]), ("p", JVal.num 2)]) rfl
    (Or.inl rfl)

/-- C6 counterexample: an undecodable message (`json.loads` raises) and a
decoded non-object message (`data.get` raises `AttributeError`) are not
ignored: the exception reaches the outer `except` arms and the live
connection is torn down, refuting "including non-object or undecodable
messages". -/
theorem c6_counterexample :
    handleMessage none = RecvOutcome.raised ∧
    handleMessage (some (JVal.arr [])) = RecvOutcome.raised ∧
    RecvOutcome.raised ≠ RecvOutcome.ignored :=
  ⟨rfl, rfl, fun h => nomatch h⟩

/-- C6 as amended: a decodable JSON *object* whose `type` field is not
the string `"trade"` is ignored without error and without any trade
processing; an undecodable message or a decoded non-object instead
raises, tearing the live connection down for reconnect. -/
theorem c6_amended_nontrade_object_ignored
    (fields : List (String × JVal)) (q : ℚ)
    (hnt : isTradeType fields = false) :
    handleMessage (some (JVal.obj fields)) = RecvOutcome.ignored ∧
    handleMessage none = RecvOutcome.raised ∧
    handleMessage (some (JVal.num q)) = RecvOutcome.raised := by
  refine ⟨?_, rfl, rfl⟩
  simp [handleMessage, hnt]

/-- Witness for C6 (amended) on a concrete ping-typed object. -/
theorem c6_witness :
    handleMessage (some (JVal.obj [("type", JVal.str "ping")])) =
      RecvOutcome.ignored ∧
    handleMessage none = RecvOutcome.raised ∧
    handleMessage (some (JVal.num 2)) = RecvOutcome.raised :=
  c6_amended_nontrade_object_ignored [("type", JVal.str "ping")] 2
    (by simp [isTradeType, jLookup])

/-- A flush pass with no appends interleaved at its suspension points
behaves as the sequential `flush_ohlcv` with all writes succeeding:
every non-empty window is written and the buffer ends empty. -/
theorem flushLoop_no_appends (todo : Buffer) :
    ∀ done : Buffer,
      flushLoop done todo [] =
        ⟨todo.filterMap (fun e =>
          match e.2 with
          | [] => none
          | t :: ts => some (e.1, ohlcvOf t ts)), false, []⟩ := by
  induction todo with
  | nil => intro done; simp [flushLoop]
  | cons e rest ih =>
    intro done
    obtain ⟨sym, trades⟩ := e
    cases trades with
    | nil => simp only [flushLoop]; rw [ih]; rfl
    | cons t ts =>
      simp only [flushLoop, List.headD_nil, applyAppends, List.tail_nil]
      rw [ih]
      rfl

/-- C8 counterexample: the buffer holds one sample for "A"; while the
flush pass awaits the `hset` for "A", the receive loop appends a second
sample for "A".  The pass completes without error, writes only the
one-sample record, and its final `ohlcv_buffer.clear()` wipes the second
sample: that sample lands in no flush cycle at all — silently dropped by
the append/clear race, refuting "never dropped by a race". -/
theorem c8_counterexample :
    runFlushCycle [("A", [⟨1, 2⟩])] [[("A", ⟨3, 4⟩)]] =
      ⟨[("A", ohlcvOf ⟨1, 2⟩ [])], false, []⟩ ∧
    (ohlcvOf ⟨1, 2⟩ []).volume = 2 := by
  constructor
  · simp [runFlushCycle, flushLoop, applyAppends, hasKey, addToKey]
  · simp [ohlcvOf]

/-- C8 as amended: a sample appended while no flush pass is in progress
lands in exactly the next flush cycle — with no appends interleaved in
the pass, the cycle writes precisely the sequential `flush_ohlcv` records
of every buffered sample and empties the buffer, so no sample is
duplicated into a later cycle; but a sample appended during the pass,
after its instrument's window has been read, is silently discarded by the
pass's final unconditional clear (see the counterexample). -/
theorem c8_amended_quiescent_cycle_exact (buf : Buffer) :
    runFlushCycle buf [] =
      ⟨(flush_ohlcv (fun _ => true) buf).1, false, []⟩ := by
  rw [runFlushCycle, flushLoop_no_appends buf []]
  have hw :
      buf.filterMap (fun e =>
        match e.2 with
        | [] => none
        | t :: ts => some (e.1, ohlcvOf t ts)) =
      (flush_ohlcv (fun _ => true) buf).1 := by
    rw [flush_ohlcv]
    apply List.filterMap_congr
    intro e _
    cases e.2 <;> simp
  rw [hw]

end Streamer
